import Mathlib

/-!
Verification of the HYBB utility app (`src/app.py`).

The application is a thin layer over two external collaborators:

* a spreadsheet (Google Sheets via gspread), modelled as a `Sheet`:
  a list of rows, each row a list of strings, whose head is the header row;
  the operations used by the code are `append_row` and
  `update_cell(row, col, value)` with 1-based row/column numbers;
* a blob store (Google Drive), whose `files().create` call is external: the
  file id it returns is a parameter of the model, and `save_image_to_drive`
  builds the public view URL from it, as the code does.

The pandas parser `pd.to_datetime(·, errors="coerce")` (used by the
Dashboard) is an external library call; it is modelled as an arbitrary
parameter function returning `none` where the library would coerce to NaT,
since the Dashboard claims hold for every such function.
`datetime.strptime(·, "%Y-%m-%d %H:%M:%S")` (used by the Admin Dashboard
listing) is modelled concretely. Character case is modelled at ASCII level.
-/

namespace HybbApp

/-- A spreadsheet row: an ordered sequence of cell strings. -/
abbrev Row := List String

/-- The spreadsheet: an ordered sequence of rows, the first being the header. -/
abbrev Sheet := List Row

/-- The 0-based positions of the Request fields inside a data row are fixed
by the append order in `main`:
`sheet.append_row([timestamp, kitchen, emp_name, emp_id, img_url, "Pending", "", ""])`. -/
def colTimestamp (r : Row) : String := r.getD 0 ""

/-- Kitchen/site code cell of a data row (position 1). -/
def colKitchen (r : Row) : String := r.getD 1 ""

/-- Employee name cell of a data row (position 2). -/
def colEmpName (r : Row) : String := r.getD 2 ""

/-- Employee id cell of a data row (position 3). -/
def colEmpId (r : Row) : String := r.getD 3 ""

/-- Photo URL cell of a data row (position 4). -/
def colPhotoUrl (r : Row) : String := r.getD 4 ""

/-- Status cell of a data row (position 5). -/
def colStatus (r : Row) : String := r.getD 5 ""

/-- Reviewer cell of a data row (position 6). -/
def colReviewer (r : Row) : String := r.getD 6 ""

/-- Comment cell of a data row (position 7). -/
def colComment (r : Row) : String := r.getD 7 ""

/-- Model of gspread `Worksheet.append_row(fields)`: the row is appended
after the existing rows. -/
def append_row (s : Sheet) (r : Row) : Sheet := s ++ [r]

/-- Model of gspread `Worksheet.update_cell(row, col, value)`: row and
column numbers are 1-based (row 1 is the header row). Out-of-range
updates are modelled as no-ops (the claims only exercise in-range cells). -/
def update_cell (s : Sheet) (row col : Nat) (v : String) : Sheet :=
  s.set (row - 1) ((s.getD (row - 1) []).set (col - 1) v)

/-- Model of `save_image_to_drive(image_data, creds)`: the Drive upload is an
external call whose returned file id is the parameter `fileId`; the function
returns `f"https://drive.google.com/uc?export=view&id=\x7bfile_id\x7d"`. -/
def save_image_to_drive (fileId : String) : String :=
  "https://drive.google.com/uc?export=view&id=" ++ fileId

/-- Outcome message surfaced to the submitting user. -/
inductive SubmitMessage
  | validationWarning
  | success
deriving DecidableEq

/-- Result of one press of the Submit button: the new sheet state, how many
blob uploads were performed, and the message surfaced to the user. -/
structure SubmitOutcome where
  sheet : Sheet
  uploads : Nat
  message : SubmitMessage
deriving DecidableEq

/-- The validation test of the Submit button:
`all([kitchen != "--Select--", emp_name, emp_id, picture])`. A Python string
is truthy iff non-empty, and the camera input is truthy iff a photo was
taken (modelled as `Option` of the image bytes). -/
def validSubmission (kitchen emp_name emp_id : String)
    (picture : Option (List Nat)) : Bool :=
  (kitchen != "--Select--") && (emp_name != "") && (emp_id != "") && picture.isSome

/-- One press of the Submit button (`main`, Submit Request branch): if
validation fails, warn and write nothing; otherwise upload the photo and
append the single row
`[now, kitchen, emp_name, emp_id, img_url, "Pending", "", ""]`.
`now` is the current-time string and `fileId` the id returned by Drive. -/
def submitRequest (s : Sheet) (kitchen emp_name emp_id : String)
    (picture : Option (List Nat)) (now fileId : String) : SubmitOutcome :=
  if validSubmission kitchen emp_name emp_id picture then
    let img_url := save_image_to_drive fileId
    { sheet := append_row s [now, kitchen, emp_name, emp_id, img_url, "Pending", "", ""]
      uploads := 1
      message := .success }
  else
    { sheet := s, uploads := 0, message := .validationWarning }

/-- Python whitespace as removed by `str.strip()`. -/
def isPyWhitespace (c : Char) : Bool :=
  c == ' ' || c == '\t' || c == '\n' || c == '\r' || c == '\x0b' || c == '\x0c'

/-- Model of Python `str.strip()`: leading and trailing whitespace removed. -/
def py_strip (s : String) : String :=
  ⟨((s.toList.dropWhile isPyWhitespace).reverse.dropWhile isPyWhitespace).reverse⟩

/-- Model of `is_admin()`: returns whether the entered password equals the
configured secret (`st.secrets.get("admin_password", "admin123")`, i.e. the
hardcoded default when the secret is unset), together with the entered
reviewer name. -/
def is_admin (admin_password_secret : Option String)
    (password admin_name : String) : Bool × String :=
  (password == admin_password_secret.getD "admin123", admin_name)

/-- The Admin Dashboard branch of `main` shows the review flow iff
`is_admin` returned true and `admin_name.strip()` is truthy (non-empty). -/
def adminDashboardShown (admin_password_secret : Option String)
    (password admin_name : String) : Bool :=
  (is_admin admin_password_secret password admin_name).1 &&
    (py_strip admin_name != "")

/-- Python regex metacharacters. `Series.str.contains` interprets its
pattern argument as a regular expression by default (`regex=True`). -/
def isRegexMeta (c : Char) : Bool :=
  c == '.' || c == '^' || c == '$' || c == '*' || c == '+' || c == '?' ||
  c == '\x7b' || c == '\x7d' || c == '[' || c == ']' || c == '\\' ||
  c == '|' || c == '(' || c == ')'

/-- One pattern character against one text character under `re.IGNORECASE`
(ASCII case model): the wildcard '.' matches any character, any other
character matches case-insensitively. -/
def charMatch (pc tc : Char) : Bool := pc == '.' || pc.toLower == tc.toLower

/-- Does the pattern match starting at the head of the text? -/
def matchAt : List Char → List Char → Bool
  | [], _ => true
  | _ :: _, [] => false
  | pc :: ps, tc :: ts => charMatch pc tc && matchAt ps ts

/-- Model of `re.search`: the pattern matches at some offset of the text. -/
def searchFrom : List Char → List Char → Bool
  | p, [] => matchAt p []
  | p, tc :: ts => matchAt p (tc :: ts) || searchFrom p ts

/-- Model of `Series.str.contains(pat, case=False, na=False)` at one cell,
for patterns made of literal characters and '.' wildcards (the modelled
fragment of Python regular expressions; cells read from the sheet are
strings, so the `na` case does not arise). -/
def str_contains_ci (pat text : String) : Bool :=
  searchFrom pat.toList text.toList

/-- ASCII-lowered character sequence of a string. -/
def lowerChars (s : String) : List Char := s.toList.map Char.toLower

/-- Does the needle occur verbatim at the head of the haystack? -/
def substringAt : List Char → List Char → Bool
  | [], _ => true
  | _ :: _, [] => false
  | c :: cs, d :: ds => c == d && substringAt cs ds

/-- Does the needle occur verbatim anywhere in the haystack? -/
def containsSub : List Char → List Char → Bool
  | n, [] => n.isEmpty
  | n, d :: ds => substringAt n (d :: ds) || containsSub n ds

/-- Modelled from the spec words "occurs as a case-insensitive substring":
the needle, lowered, occurs verbatim in the lowered haystack. -/
def spec_substring_ci (needle hay : String) : Bool :=
  containsSub (lowerChars needle) (lowerChars hay)

/-- The pending-only step of the Admin Dashboard listing
(`df[df["Status"] == "Pending"]`); pandas keeps the original row labels. -/
def pendingFilter (pendingOnly : Bool) (l : List (Nat × Row)) :
    List (Nat × Row) :=
  if pendingOnly then l.filter (fun p => colStatus p.2 == "Pending") else l

/-- The kitchen filter step (`if kitchen_filter != "All": ...`). -/
def kitchenFilterStep (kitchen_filter : String) (l : List (Nat × Row)) :
    List (Nat × Row) :=
  if kitchen_filter != "All" then
    l.filter (fun p => colKitchen p.2 == kitchen_filter)
  else l

/-- The status filter step (`if status_filter != "All": ...`). -/
def statusFilterStep (status_filter : String) (l : List (Nat × Row)) :
    List (Nat × Row) :=
  if status_filter != "All" then
    l.filter (fun p => colStatus p.2 == status_filter)
  else l

/-- The free-text search step (`if search_text.strip(): ...`): keep the rows
whose employee name or employee id matches the search text under
`str.contains(search_text, case=False, na=False)`. -/
def searchFilter (search_text : String) (l : List (Nat × Row)) :
    List (Nat × Row) :=
  if py_strip search_text != "" then
    l.filter (fun p => str_contains_ci search_text (colEmpName p.2) ||
                       str_contains_ci search_text (colEmpId p.2))
  else l

/-- The Admin Dashboard listing: the data rows paired with their pandas
labels (0-based position in the full data listing `data[1:]`), taken through
the pending/kitchen/status/search filter chain of `main`. Boolean-mask
filtering preserves the original labels, which is what `iterrows()` later
yields as `i`. -/
def adminListing (pendingOnly : Bool)
    (kitchen_filter status_filter search_text : String) (rows : List Row) :
    List (Nat × Row) :=
  searchFilter search_text
    (statusFilterStep status_filter
      (kitchenFilterStep kitchen_filter
        (pendingFilter pendingOnly rows.enum)))

/-- The Approve button for the displayed request with label `i`:
`sheet.update_cell(i + 2, 6, "Approved"); sheet.update_cell(i + 2, 7, admin_name)`. -/
def approveAction (s : Sheet) (i : Nat) (admin_name : String) : Sheet :=
  update_cell (update_cell s (i + 2) 6 "Approved") (i + 2) 7 admin_name

/-- The Reject button for the displayed request with label `i`. -/
def rejectAction (s : Sheet) (i : Nat) (admin_name : String) : Sheet :=
  update_cell (update_cell s (i + 2) 6 "Rejected") (i + 2) 7 admin_name

/-- The Save Comment button for the displayed request with label `i`:
`sheet.update_cell(i + 2, 8, comment)`. -/
def saveCommentAction (s : Sheet) (i : Nat) (comment : String) : Sheet :=
  update_cell s (i + 2) 8 comment

/-- One store-mutating user action: a submission, or one of the three
admin buttons. -/
inductive StoreAction
  | submit (kitchen emp_name emp_id : String) (picture : Option (List Nat))
      (now fileId : String)
  | approve (i : Nat) (admin_name : String)
  | reject (i : Nat) (admin_name : String)
  | saveComment (i : Nat) (comment : String)

/-- Effect of one store-mutating action on the sheet. -/
def applyAction (s : Sheet) : StoreAction → Sheet
  | .submit k n e pic now fid => (submitRequest s k n e pic now fid).sheet
  | .approve i a => approveAction s i a
  | .reject i a => rejectAction s i a
  | .saveComment i c => saveCommentAction s i c

/-- Sheet states reachable by the application from a fresh sheet holding
only the header row (the application exposes no other write path). -/
inductive Reachable (header : Row) : Sheet → Prop
  | init : Reachable header [header]
  | step {s : Sheet} (a : StoreAction) :
      Reachable header s → Reachable header (applyAction s a)

/-- The status invariant: every data row (every row after the header) has
the eight Request fields and a status among Pending/Approved/Rejected. -/
def statusOk (s : Sheet) : Prop :=
  ∀ r ∈ s.tail, r.length = 8 ∧
    (colStatus r = "Pending" ∨ colStatus r = "Approved" ∨
     colStatus r = "Rejected")

/-- The (kitchen, month) group key of one row for the purchase summary:
`pd.to_datetime(·, errors="coerce")` followed by `strftime("%b %Y")`. The
pandas parser is external and passed as `toMonth`, returning `none` where
pandas coerces to NaT (whose formatted month is the null that `groupby`
drops). -/
def groupKey (toMonth : String → Option String) (r : Row) :
    Option (String × String) :=
  (toMonth (colTimestamp r)).map (fun m => (colKitchen r, m))

/-- The distinct (kitchen, month) group keys of the purchase summary. -/
def purchaseKeys (toMonth : String → Option String) (rows : List Row) :
    List (String × String) :=
  (rows.filterMap (groupKey toMonth)).dedup

/-- Size of one (kitchen, month) group. -/
def pairCount (toMonth : String → Option String) (rows : List Row)
    (k m : String) : Nat :=
  rows.countP (fun r => colKitchen r == k && toMonth (colTimestamp r) == some m)

/-- Model of `df.groupby(["Kitchen", "Month"]).size()`: one entry per
distinct (kitchen, month) group carrying the group size; `groupby` drops
null keys, so rows whose timestamp failed to parse belong to no group.
Group ordering is not modelled. -/
def tanker_summary (toMonth : String → Option String) (rows : List Row) :
    List (String × String × Nat) :=
  (purchaseKeys toMonth rows).map
    (fun p => (p.1, p.2, pairCount toMonth rows p.1 p.2))

/-- The Ticket Status view of the Dashboard: an optional kitchen filter
("All" selects everything) and an optional exact-date filter. The pandas
calendar-date projection `pd.to_datetime(·, errors="coerce").dt.date` is
external, passed as `toDate` with dates encoded as naturals; an unparsable
timestamp has date `none`, which equals no chosen date (NaT comparisons are
false in pandas). -/
def ticketStatusView (toDate : String → Option Nat) (kitchen_filter : String)
    (date_filter : Option Nat) (rows : List Row) : List Row :=
  let f1 := if kitchen_filter != "All" then
      rows.filter (fun r => colKitchen r == kitchen_filter)
    else rows
  match date_filter with
  | some d => f1.filter (fun r => toDate (colTimestamp r) == some d)
  | none => f1

/-- Gregorian leap-year test, as in Python's calendar. -/
def isLeapYear (y : Nat) : Bool :=
  (y % 4 == 0 && y % 100 != 0) || (y % 400 == 0)

/-- Days in a month of a given year. -/
def daysInMonth (y m : Nat) : Nat :=
  if m == 2 then (if isLeapYear y then 29 else 28)
  else if m == 4 || m == 6 || m == 9 || m == 11 then 30
  else 31

/-- A parsed wall-clock time, as produced by `datetime.strptime`. -/
structure DateTime6 where
  year : Nat
  month : Nat
  day : Nat
  hour : Nat
  minute : Nat
  second : Nat
deriving DecidableEq

/-- Numeric value of a decimal digit character. -/
def digitVal (c : Char) : Nat := c.toNat - '0'.toNat

/-- Read one or two decimal digits (greedily), as the strptime patterns for
%m, %d, %H, %M, %S do. -/
def takeDigits2 : List Char → Option (Nat × List Char)
  | c1 :: c2 :: rest =>
    if c1.isDigit && c2.isDigit then
      some (digitVal c1 * 10 + digitVal c2, rest)
    else if c1.isDigit then some (digitVal c1, c2 :: rest)
    else none
  | [c1] => if c1.isDigit then some (digitVal c1, []) else none
  | [] => none

/-- Read exactly four decimal digits, as the strptime pattern for %Y does. -/
def take4Digits : List Char → Option (Nat × List Char)
  | a :: b :: c :: d :: rest =>
    if a.isDigit && b.isDigit && c.isDigit && d.isDigit then
      some (((digitVal a * 10 + digitVal b) * 10 + digitVal c) * 10 +
        digitVal d, rest)
    else none
  | _ => none

/-- Expect one literal character of the format string. -/
def expectChar (c : Char) : List Char → Option (List Char)
  | d :: rest => if d == c then some rest else none
  | [] => none

/-- Model of `datetime.strptime(s, "%Y-%m-%d %H:%M:%S")`: a four-digit
year, one-or-two-digit month/day/hour/minute/second separated by the format
literals, the whole string consumed, and the `datetime` constructor's range
checks (year at least 1, a valid calendar day, hour below 24,
minute/second below 60). Every failure raises `ValueError` in Python and is
modelled as `none`. -/
def strptime_YmdHMS (s : String) : Option DateTime6 :=
  (take4Digits s.toList).bind fun py =>
  (expectChar '-' py.2).bind fun r2 =>
  (takeDigits2 r2).bind fun pmo =>
  (expectChar '-' pmo.2).bind fun r4 =>
  (takeDigits2 r4).bind fun pd =>
  (expectChar ' ' pd.2).bind fun r6 =>
  (takeDigits2 r6).bind fun ph =>
  (expectChar ':' ph.2).bind fun r8 =>
  (takeDigits2 r8).bind fun pmi =>
  (expectChar ':' pmi.2).bind fun r10 =>
  (takeDigits2 r10).bind fun pse =>
  if pse.2 = [] ∧ 1 ≤ py.1 ∧ 1 ≤ pmo.1 ∧ pmo.1 ≤ 12 ∧ 1 ≤ pd.1 ∧
      pd.1 ≤ daysInMonth py.1 pmo.1 ∧ ph.1 ≤ 23 ∧ pmi.1 ≤ 59 ∧ pse.1 ≤ 59
  then some ⟨py.1, pmo.1, pd.1, ph.1, pmi.1, pse.1⟩
  else none

/-- Abbreviated month name, as strftime's %b (C locale). -/
def monthAbbr (m : Nat) : String :=
  ["Jan", "Feb", "Mar", "Apr", "May", "Jun", "Jul", "Aug", "Sep", "Oct",
   "Nov", "Dec"].getD (m - 1) "?"

/-- Zero-padded two-digit decimal rendering. -/
def pad2 (n : Nat) : String :=
  if n < 10 then "0" ++ toString n else toString n

/-- Zero-padded four-digit decimal rendering. -/
def pad4 (n : Nat) : String :=
  if n < 10 then "000" ++ toString n
  else if n < 100 then "00" ++ toString n
  else if n < 1000 then "0" ++ toString n
  else toString n

/-- Hour on the 12-hour clock, as strftime's %I. -/
def hour12 (h : Nat) : Nat := if h % 12 == 0 then 12 else h % 12

/-- Model of `strftime("%d %b %Y, %I:%M %p")`. -/
def fmt_dbY_IMp (t : DateTime6) : String :=
  pad2 t.day ++ " " ++ monthAbbr t.month ++ " " ++ pad4 t.year ++ ", " ++
  pad2 (hour12 t.hour) ++ ":" ++ pad2 t.minute ++ " " ++
  (if t.hour < 12 then "AM" else "PM")

/-- The request-time text shown by the Admin Dashboard listing: strptime
then strftime, and on any exception the raw stored cell string. -/
def displayRequestTime (ts : String) : String :=
  match strptime_YmdHMS ts with
  | some t => fmt_dbY_IMp t
  | none => ts

/-- A concrete stand-in for the external pandas month projection, used by
concrete instantiations: it recognises two fixed January-2024 timestamps. -/
def sampleToMonth : String → Option String := fun ts =>
  if ts = "2024-01-15 10:00:00" ∨ ts = "2024-01-20 11:30:00" then
    some "Jan 2024"
  else none

/-- A concrete stand-in for the external pandas calendar-date projection,
used by concrete instantiations: it recognises one fixed timestamp. -/
def sampleToDate : String → Option Nat := fun ts =>
  if ts = "2024-01-15 10:00:00" then some 20240115 else none

/-- A sample pending request row, for concrete instantiations. -/
def sampleRow : Row :=
  ["2024-01-15 10:00:00", "WFD01", "Alice", "E1", "u", "Pending", "", ""]

/-- A second sample row, already approved. -/
def sampleRow2 : Row :=
  ["2024-01-20 11:30:00", "HSR01", "Bob", "E2", "u", "Approved", "alice", ""]

/-- A sample row whose timestamp does not parse. -/
def sampleRowBad : Row :=
  ["no-date", "WFD01", "Dana", "E4", "u", "Pending", "", ""]

/-- Two sample data rows. -/
def sampleRows2 : List Row := [sampleRow, sampleRow2]

/-- Three sample data rows, one with a malformed timestamp. -/
def sampleRows3 : List Row := [sampleRow, sampleRow2, sampleRowBad]

section Lemmas

/-- Updating a data cell (1-based sheet row `i + 2`) leaves the header in
place and rewrites one cell of data row `i`. -/
theorem update_cell_cons (header : Row) (rows : List Row) (i c : Nat)
    (v : String) :
    update_cell (header :: rows) (i + 2) c v =
      header :: rows.set i ((rows.getD i []).set (c - 1) v) := by
  show (header :: rows).set (i + 1) _ = _
  simp [update_cell]

theorem approveAction_cons (header : Row) (rows : List Row) (i : Nat)
    (v : String) (r : Row) (hr : rows[i]? = some r) :
    approveAction (header :: rows) i v =
      header :: rows.set i ((r.set 5 "Approved").set 6 v) := by
  have hi : i < rows.length := by
    rcases List.getElem?_eq_some_iff.1 hr with ⟨h, _⟩; exact h
  have hgd : rows.getD i [] = r := by
    simp [List.getD_eq_getElem?_getD, hr]
  rw [approveAction, update_cell_cons, hgd, update_cell_cons]
  simp [List.getD_eq_getElem?_getD, List.getElem?_set_self hi, List.set_set]

theorem rejectAction_cons (header : Row) (rows : List Row) (i : Nat)
    (v : String) (r : Row) (hr : rows[i]? = some r) :
    rejectAction (header :: rows) i v =
      header :: rows.set i ((r.set 5 "Rejected").set 6 v) := by
  have hi : i < rows.length := by
    rcases List.getElem?_eq_some_iff.1 hr with ⟨h, _⟩; exact h
  have hgd : rows.getD i [] = r := by
    simp [List.getD_eq_getElem?_getD, hr]
  rw [rejectAction, update_cell_cons, hgd, update_cell_cons]
  simp [List.getD_eq_getElem?_getD, List.getElem?_set_self hi, List.set_set]

theorem saveCommentAction_cons (header : Row) (rows : List Row) (i : Nat)
    (v : String) (r : Row) (hr : rows[i]? = some r) :
    saveCommentAction (header :: rows) i v =
      header :: rows.set i (r.set 7 v) := by
  have hgd : rows.getD i [] = r := by
    simp [List.getD_eq_getElem?_getD, hr]
  rw [saveCommentAction, update_cell_cons, hgd]

theorem save_image_to_drive_ne_empty (fileId : String) :
    save_image_to_drive fileId ≠ "" := by
  intro h
  have hlen := congrArg String.length h
  simp [save_image_to_drive, String.length_append] at hlen
  exact absurd hlen.1 (by decide)

end Lemmas

/-- C1: a valid submission appends exactly one row, in field order
[timestamp = now, site, employeeName, employeeId, photoUrl,
status = "Pending", reviewer = "", comment = ""], where the photoUrl is the
(non-empty) URL obtained from the blob-store upload, and exactly one upload
is performed, with success reported. -/
theorem submit_valid_appends_one_pending_row (s : Sheet)
    (kitchen emp_name emp_id : String) (picture : Option (List Nat))
    (now fileId : String)
    (h : validSubmission kitchen emp_name emp_id picture = true) :
    (submitRequest s kitchen emp_name emp_id picture now fileId).sheet =
      s ++ [[now, kitchen, emp_name, emp_id, save_image_to_drive fileId,
             "Pending", "", ""]] ∧
    (submitRequest s kitchen emp_name emp_id picture now fileId).uploads = 1 ∧
    (submitRequest s kitchen emp_name emp_id picture now fileId).message =
      .success ∧
    save_image_to_drive fileId ≠ "" := by
  refine ⟨?_, ?_, ?_, save_image_to_drive_ne_empty fileId⟩ <;>
    simp [submitRequest, h, append_row]

/-- Witness for C1 at a concrete valid submission. -/
theorem submit_valid_appends_one_pending_row_witness :
    (submitRequest [["h"]] "WFD01" "Alice" "E1" (some [0]) "2024-01-15 10:00:00"
        "FID").sheet =
      [["h"], ["2024-01-15 10:00:00", "WFD01", "Alice", "E1",
               "https://drive.google.com/uc?export=view&id=FID",
               "Pending", "", ""]] :=
  (submit_valid_appends_one_pending_row [["h"]] "WFD01" "Alice" "E1"
      (some [0]) "2024-01-15 10:00:00" "FID" (by decide)).1

/-- C3: a submission with any required field missing (placeholder kitchen,
empty employee name, empty employee id, or no photo) appends no row, performs
no upload, and surfaces the validation warning. -/
theorem submit_invalid_appends_nothing (s : Sheet)
    (kitchen emp_name emp_id : String) (picture : Option (List Nat))
    (now fileId : String)
    (h : validSubmission kitchen emp_name emp_id picture = false) :
    (submitRequest s kitchen emp_name emp_id picture now fileId).sheet = s ∧
    (submitRequest s kitchen emp_name emp_id picture now fileId).uploads = 0 ∧
    (submitRequest s kitchen emp_name emp_id picture now fileId).message =
      .validationWarning := by
  refine ⟨?_, ?_, ?_⟩ <;> simp [submitRequest, h]

/-- Witness for C3 at a concrete invalid submission (no photo taken). -/
theorem submit_invalid_appends_nothing_witness :
    (submitRequest [["h"]] "WFD01" "Alice" "E1" none "2024-01-15 10:00:00"
        "FID").sheet = [["h"]] :=
  (submit_invalid_appends_nothing [["h"]] "WFD01" "Alice" "E1" none
      "2024-01-15 10:00:00" "FID" (by decide)).1

/-- C2: approving the request at data row `i` rewrites exactly that row:
its status becomes "Approved", its reviewer the acting admin name, its six
other fields keep their values, and every other row (header included) is
untouched. -/
theorem approve_sets_status_reviewer_only (header : Row) (rows : List Row)
    (i : Nat) (admin_name : String) (r : Row)
    (hr : rows[i]? = some r) (hlen : r.length = 8) :
    approveAction (header :: rows) i admin_name =
      header :: rows.set i ((r.set 5 "Approved").set 6 admin_name) ∧
    colStatus ((r.set 5 "Approved").set 6 admin_name) = "Approved" ∧
    colReviewer ((r.set 5 "Approved").set 6 admin_name) = admin_name ∧
    colTimestamp ((r.set 5 "Approved").set 6 admin_name) = colTimestamp r ∧
    colKitchen ((r.set 5 "Approved").set 6 admin_name) = colKitchen r ∧
    colEmpName ((r.set 5 "Approved").set 6 admin_name) = colEmpName r ∧
    colEmpId ((r.set 5 "Approved").set 6 admin_name) = colEmpId r ∧
    colPhotoUrl ((r.set 5 "Approved").set 6 admin_name) = colPhotoUrl r ∧
    colComment ((r.set 5 "Approved").set 6 admin_name) = colComment r ∧
    ∀ j, j ≠ i →
      (rows.set i ((r.set 5 "Approved").set 6 admin_name))[j]? = rows[j]? := by
  refine ⟨approveAction_cons header rows i admin_name r hr, ?_, ?_, ?_, ?_,
    ?_, ?_, ?_, ?_, fun j hj => List.getElem?_set_ne (Ne.symm hj)⟩ <;>
    simp [colStatus, colReviewer, colTimestamp, colKitchen, colEmpName,
      colEmpId, colPhotoUrl, colComment, List.getD_eq_getElem?_getD,
      List.getElem?_set_self, List.getElem?_set_ne, List.length_set, hlen]

/-- Witness for C2 at a concrete two-row store. -/
theorem approve_sets_status_reviewer_only_witness :
    approveAction (["h"] :: sampleRows2) 0 "carol" =
      ["h"] :: sampleRows2.set 0 ((sampleRow.set 5 "Approved").set 6 "carol") :=
  (approve_sets_status_reviewer_only ["h"] sampleRows2 0 "carol" sampleRow
      (by decide) (by decide)).1

theorem mem_of_mem_cond_filter {α : Type} {c : Prop} [Decidable c]
    {f : α → Bool} {l : List α} {p : α}
    (h : p ∈ if c then l.filter f else l) : p ∈ l := by
  split at h
  · exact (List.mem_filter.1 h).1
  · exact h

theorem mem_enum_of_mem_adminListing {pendingOnly : Bool}
    {kitchen_filter status_filter search_text : String} {rows : List Row}
    {p : Nat × Row}
    (h : p ∈ adminListing pendingOnly kitchen_filter status_filter
      search_text rows) : p ∈ rows.enum := by
  rw [adminListing, searchFilter] at h
  replace h := mem_of_mem_cond_filter h
  rw [statusFilterStep] at h
  replace h := mem_of_mem_cond_filter h
  rw [kitchenFilterStep] at h
  replace h := mem_of_mem_cond_filter h
  rw [pendingFilter] at h
  exact mem_of_mem_cond_filter h

/-- C10: every request displayed by the Admin Dashboard carries, through
every combination of the pending/kitchen/status/search filters, its 0-based
label `i` in the full data listing; the row it denotes is data row `i` of
the store, and each of the three admin writes (issued at 1-based sheet row
`i + 2`) rewrites exactly that row. -/
theorem admin_write_targets_displayed_row (pendingOnly : Bool)
    (kitchen_filter status_filter search_text : String) (header : Row)
    (rows : List Row) (i : Nat) (r : Row) (admin_name comment : String)
    (hmem : (i, r) ∈ adminListing pendingOnly kitchen_filter status_filter
      search_text rows) :
    rows[i]? = some r ∧
    approveAction (header :: rows) i admin_name =
      header :: rows.set i ((r.set 5 "Approved").set 6 admin_name) ∧
    rejectAction (header :: rows) i admin_name =
      header :: rows.set i ((r.set 5 "Rejected").set 6 admin_name) ∧
    saveCommentAction (header :: rows) i comment =
      header :: rows.set i (r.set 7 comment) := by
  have hr : rows[i]? = some r :=
    List.mk_mem_enum_iff_getElem?.1 (mem_enum_of_mem_adminListing hmem)
  exact ⟨hr, approveAction_cons header rows i admin_name r hr,
    rejectAction_cons header rows i admin_name r hr,
    saveCommentAction_cons header rows i comment r hr⟩

/-- Witness for C10: the pending-only view of a concrete two-row store
displays row 0, and the writes target data row 0. -/
theorem admin_write_targets_displayed_row_witness :
    sampleRows2[0]? = some sampleRow ∧
    approveAction (["h"] :: sampleRows2) 0 "carol" =
      ["h"] :: sampleRows2.set 0 ((sampleRow.set 5 "Approved").set 6 "carol") ∧
    rejectAction (["h"] :: sampleRows2) 0 "carol" =
      ["h"] :: sampleRows2.set 0 ((sampleRow.set 5 "Rejected").set 6 "carol") ∧
    saveCommentAction (["h"] :: sampleRows2) 0 "ok" =
      ["h"] :: sampleRows2.set 0 (sampleRow.set 7 "ok") :=
  admin_write_targets_displayed_row true "All" "All" "" ["h"] sampleRows2 0
    sampleRow "carol" "ok" (by decide)

/-- C4 counterexample: with the secret unset, the password equal to the
hardcoded default "admin123" and the reviewer name a single space — a
non-empty string — the Admin Dashboard is still not shown, though the claim
as stated predicts it is shown. -/
theorem gate_claim_counterexample :
    adminDashboardShown none "admin123" " " = false ∧
    (none : Option String).getD "admin123" = "admin123" ∧
    (" " : String) ≠ "" := by decide

/-- C4 (amended): the Admin Dashboard is shown iff the submitted password
equals the configured secret (falling back to "admin123" when unset) and
the reviewer name is non-empty after stripping whitespace; in particular a
wrong password denies access regardless of the name. -/
theorem gate_shown_iff_strip_nonempty (admin_password_secret : Option String)
    (password admin_name : String) :
    adminDashboardShown admin_password_secret password admin_name = true ↔
      (password = admin_password_secret.getD "admin123" ∧
       py_strip admin_name ≠ "") := by
  simp [adminDashboardShown, is_admin]

/-- Witness for C4 (amended) at a concrete accepted login. -/
theorem gate_shown_iff_strip_nonempty_witness :
    adminDashboardShown none "admin123" "alice" = true :=
  (gate_shown_iff_strip_nonempty none "admin123" "alice").mpr
    ⟨rfl, by decide⟩

/-- C9: a timestamp cell that `datetime.strptime` cannot parse in the
format "%Y-%m-%d %H:%M:%S" is displayed as its raw stored string; the
listing itself is a total function, so the read never fails. -/
theorem display_raw_when_unparsable (ts : String)
    (h : strptime_YmdHMS ts = none) : displayRequestTime ts = ts := by
  simp [displayRequestTime, h]

/-- Witness for C9 at a concrete malformed timestamp. -/
theorem display_raw_when_unparsable_witness :
    strptime_YmdHMS "pending-review" = none ∧
    displayRequestTime "pending-review" = "pending-review" :=
  ⟨by decide, display_raw_when_unparsable "pending-review" (by decide)⟩

theorem charMatch_of_ne_dot {pc tc : Char} (h : pc ≠ '.') :
    charMatch pc tc = (pc.toLower == tc.toLower) := by
  simp [charMatch, h]

theorem matchAt_no_dot : ∀ (p t : List Char), (∀ c ∈ p, c ≠ '.') →
    matchAt p t = substringAt (p.map Char.toLower) (t.map Char.toLower)
  | [], t, _ => by cases t <;> simp [matchAt, substringAt]
  | pc :: ps, [], _ => by simp [matchAt, substringAt]
  | pc :: ps, tc :: ts, h => by
    have hpc : pc ≠ '.' := h pc (by simp)
    have hps : ∀ c ∈ ps, c ≠ '.' := fun c hc => h c (by simp [hc])
    simp [matchAt, substringAt, charMatch_of_ne_dot hpc,
      matchAt_no_dot ps ts hps]

theorem searchFrom_no_dot : ∀ (p t : List Char), (∀ c ∈ p, c ≠ '.') →
    searchFrom p t = containsSub (p.map Char.toLower) (t.map Char.toLower)
  | p, [], h => by
    cases p <;> simp [searchFrom, matchAt, containsSub, List.isEmpty]
  | p, tc :: ts, h => by
    simp [searchFrom, containsSub, matchAt_no_dot p (tc :: ts) h,
      searchFrom_no_dot p ts h]

theorem str_contains_ci_eq_substring (pat text : String)
    (h : ∀ c ∈ pat.toList, isRegexMeta c = false) :
    str_contains_ci pat text = spec_substring_ci pat text := by
  have hnd : ∀ c ∈ pat.toList, c ≠ '.' := by
    intro c hc he
    have hm := h c hc
    rw [he] at hm
    simp [isRegexMeta] at hm
  unfold str_contains_ci spec_substring_ci lowerChars
  exact searchFrom_no_dot _ _ hnd

/-- C6 counterexample: the search text "." (not a substring of any of the
cells) nevertheless retains a row, because `str.contains` interprets the
search text as a regular expression by default and '.' matches any
character. -/
theorem search_filter_dot_counterexample :
    searchFilter "." [(0, sampleRow)] = [(0, sampleRow)] ∧
    spec_substring_ci "." (colEmpName sampleRow) = false ∧
    spec_substring_ci "." (colEmpId sampleRow) = false := by decide

/-- C6 (amended): for a search text that is non-empty after stripping and
free of regex metacharacters, the admin search filter retains a row iff the
text occurs as a case-insensitive substring of the employee name or the
employee id; in general the text is interpreted as a case-insensitive
regular expression, so metacharacters match beyond literal substrings. -/
theorem search_filter_substring_when_literal (search_text : String)
    (l : List (Nat × Row)) (p : Nat × Row)
    (hs : py_strip search_text ≠ "")
    (hm : ∀ c ∈ search_text.toList, isRegexMeta c = false) :
    p ∈ searchFilter search_text l ↔
      p ∈ l ∧ (spec_substring_ci search_text (colEmpName p.2) = true ∨
               spec_substring_ci search_text (colEmpId p.2) = true) := by
  rw [searchFilter, if_pos (by simpa using hs)]
  simp [List.mem_filter, str_contains_ci_eq_substring _ _ hm]

/-- Witness for C6 (amended): "LiC" is retained as a case-insensitive
substring of "Alice". -/
theorem search_filter_substring_when_literal_witness :
    (0, sampleRow) ∈ searchFilter "LiC" [(0, sampleRow)] :=
  (search_filter_substring_when_literal "LiC" [(0, sampleRow)] (0, sampleRow)
      (by decide) (by decide)).mpr ⟨by decide, Or.inl (by decide)⟩

/-- C7: the Ticket Status view returns exactly the stored rows that pass
the selected filters: the kitchen filter (when not "All") demands an equal
site code, and the date filter (when a date is chosen) demands that the
parsed timestamp's calendar date equal the chosen date. -/
theorem ticket_status_view_mem (toDate : String → Option Nat)
    (kitchen_filter : String) (date_filter : Option Nat) (rows : List Row)
    (r : Row) :
    r ∈ ticketStatusView toDate kitchen_filter date_filter rows ↔
      (r ∈ rows ∧ (kitchen_filter ≠ "All" → colKitchen r = kitchen_filter) ∧
       ∀ d, date_filter = some d → toDate (colTimestamp r) = some d) := by
  by_cases hk : kitchen_filter = "All" <;>
    cases date_filter <;>
      simp [ticketStatusView, hk, List.mem_filter, and_assoc, and_comm]

/-- Witness for C7: the matching row of a concrete store passes the
site + exact-date filters. -/
theorem ticket_status_view_mem_witness :
    sampleRow ∈ ticketStatusView sampleToDate "WFD01" (some 20240115)
      sampleRows2 :=
  (ticket_status_view_mem sampleToDate "WFD01" (some 20240115) sampleRows2
      sampleRow).mpr
    ⟨by decide, fun _ => by decide, fun d hd => by
      rw [Option.some_inj.1 hd.symm] at *; decide⟩

theorem filterMap_filter_isSome {α β : Type} (f : α → Option β)
    (q : α → Bool) (hq : ∀ a, q a = (f a).isSome) :
    ∀ l : List α, (l.filter q).filterMap f = l.filterMap f
  | [] => rfl
  | a :: l => by
    rcases hb : f a with _ | b
    · have ha : q a = false := by rw [hq a, hb]; rfl
      simp [List.filter_cons, ha, List.filterMap_cons, hb,
        filterMap_filter_isSome f q hq l]
    · have ha : q a = true := by rw [hq a, hb]; rfl
      simp [List.filter_cons, ha, List.filterMap_cons, hb,
        filterMap_filter_isSome f q hq l]

theorem countP_filter_of_imp {α : Type} (p q : α → Bool)
    (hpq : ∀ a, p a = true → q a = true) :
    ∀ l : List α, (l.filter q).countP p = l.countP p
  | [] => rfl
  | a :: l => by
    by_cases hqa : q a = true
    · simp [List.filter_cons, hqa, List.countP_cons,
        countP_filter_of_imp p q hpq l]
    · have hpa : p a = false := by
        cases hp : p a
        · rfl
        · exact absurd (hpq a hp) hqa
      simp [List.filter_cons, hqa, List.countP_cons, hpa,
        countP_filter_of_imp p q hpq l]

/-- C5: the purchase summary has one entry per distinct (site, month) key —
the keys present being exactly those realised by a request whose timestamp
parses — each entry counts exactly the requests of that site and month, and
rows with unparsable timestamps are excluded from the grouping (dropping
them beforehand changes nothing) rather than causing an error. -/
theorem tanker_summary_exact (toMonth : String → Option String)
    (rows : List Row) :
    (purchaseKeys toMonth rows).Nodup ∧
    (∀ k m, (k, m) ∈ purchaseKeys toMonth rows ↔
      ∃ r ∈ rows, colKitchen r = k ∧ toMonth (colTimestamp r) = some m) ∧
    (∀ e ∈ tanker_summary toMonth rows,
      e.2.2 = (rows.filter (fun r => colKitchen r == e.1 &&
        toMonth (colTimestamp r) == some e.2.1)).length) ∧
    tanker_summary toMonth rows =
      tanker_summary toMonth
        (rows.filter (fun r => (toMonth (colTimestamp r)).isSome)) := by
  refine ⟨List.nodup_dedup _, ?_, ?_, ?_⟩
  · intro k m
    simp only [purchaseKeys, List.mem_dedup, List.mem_filterMap, groupKey,
      Option.map_eq_some', Prod.mk.injEq]
    constructor
    · rintro ⟨r, hr, mm, hmm, hk, rfl⟩
      exact ⟨r, hr, hk, hmm⟩
    · rintro ⟨r, hr, hk, hmm⟩
      exact ⟨r, hr, m, hmm, hk, rfl⟩
  · intro e he
    simp only [tanker_summary, List.mem_map] at he
    obtain ⟨p, _, rfl⟩ := he
    simp [pairCount, List.countP_eq_length_filter]
  · have hkeys : purchaseKeys toMonth
        (rows.filter fun r => (toMonth (colTimestamp r)).isSome) =
        purchaseKeys toMonth rows := by
      unfold purchaseKeys
      rw [filterMap_filter_isSome (groupKey toMonth) _
        (fun r => by simp [groupKey])]
    have hcount : ∀ k m, pairCount toMonth
        (rows.filter fun r => (toMonth (colTimestamp r)).isSome) k m =
        pairCount toMonth rows k m := by
      intro k m
      unfold pairCount
      refine countP_filter_of_imp _ _ (fun r hr => ?_) rows
      have h2 : (colKitchen r == k) = true ∧
          (toMonth (colTimestamp r) == some m) = true := by
        simpa [Bool.and_eq_true] using hr
      have hm : toMonth (colTimestamp r) = some m := by simpa using h2.2
      simp [hm]
    unfold tanker_summary
    rw [hkeys]
    exact (List.map_congr_left (fun p _ => by rw [hcount p.1 p.2])).symm

/-- Witness for C5: a realised (site, month) key of a concrete store that
also holds an unparsable-timestamp row. -/
theorem tanker_summary_exact_witness :
    ("WFD01", "Jan 2024") ∈ purchaseKeys sampleToMonth sampleRows3 :=
  ((tanker_summary_exact sampleToMonth sampleRows3).2.1 "WFD01"
      "Jan 2024").mpr ⟨sampleRow, by decide, by decide, by decide⟩

theorem colStatus_set5 (r : Row) (v : String) (h : 5 < r.length) :
    colStatus (r.set 5 v) = v := by
  simp [colStatus, List.getD_eq_getElem?_getD, List.getElem?_set_self h]

theorem colStatus_set_ne (r : Row) (j : Nat) (v : String) (h : j ≠ 5) :
    colStatus (r.set j v) = colStatus r := by
  simp [colStatus, List.getD_eq_getElem?_getD, List.getElem?_set_ne h]

theorem statusOk_update_cell_review (s : Sheet) (i c : Nat) (v : String)
    (hok : statusOk s) (hc : c = 6 ∨ c = 7 ∨ c = 8)
    (hv : c = 6 → v = "Approved" ∨ v = "Rejected") :
    statusOk (update_cell s (i + 2) c v) := by
  cases s with
  | nil =>
    intro r hr
    simp [update_cell] at hr
  | cons hd t =>
    rw [update_cell_cons]
    intro r hr
    rw [List.tail_cons] at hr
    by_cases hi : i < t.length
    · rcases List.mem_or_eq_of_mem_set hr with hmem | rfl
      · exact hok r hmem
      · have hgd : t.getD i [] = t[i] := by
          simp [List.getD_eq_getElem?_getD, List.getElem?_eq_getElem hi]
        have hbase := hok t[i] (List.getElem_mem hi)
        rw [hgd]
        refine ⟨by rw [List.length_set]; exact hbase.1, ?_⟩
        rcases hc with rfl | rfl | rfl
        · have h5 : 5 < (t[i]).length := by rw [hbase.1]; decide
          rcases hv rfl with rfl | rfl
          · exact Or.inr (Or.inl (colStatus_set5 _ _ h5))
          · exact Or.inr (Or.inr (colStatus_set5 _ _ h5))
        · rw [colStatus_set_ne _ _ _ (by decide)]
          exact hbase.2
        · rw [colStatus_set_ne _ _ _ (by decide)]
          exact hbase.2
    · rw [List.set_eq_of_length_le (Nat.le_of_not_lt hi)] at hr
      exact hok r hr

theorem statusOk_append_row (s : Sheet) (r : Row) (hok : statusOk s)
    (hr8 : r.length = 8)
    (hst : colStatus r = "Pending" ∨ colStatus r = "Approved" ∨
      colStatus r = "Rejected") :
    statusOk (s ++ [r]) := by
  cases s with
  | nil =>
    intro x hx
    simp at hx
  | cons hd t =>
    intro x hx
    rw [List.cons_append, List.tail_cons, List.mem_append,
      List.mem_singleton] at hx
    rcases hx with hx | rfl
    · exact hok x hx
    · exact ⟨hr8, hst⟩

theorem statusOk_applyAction (s : Sheet) (a : StoreAction)
    (hok : statusOk s) : statusOk (applyAction s a) := by
  cases a with
  | submit k n e pic now fid =>
    show statusOk (submitRequest s k n e pic now fid).sheet
    by_cases hval : validSubmission k n e pic = true
    · have hsheet : (submitRequest s k n e pic now fid).sheet =
          s ++ [[now, k, n, e, save_image_to_drive fid, "Pending", "", ""]] := by
        simp [submitRequest, hval, append_row]
      rw [hsheet]
      exact statusOk_append_row s _ hok rfl (Or.inl rfl)
    · have hsheet : (submitRequest s k n e pic now fid).sheet = s := by
        simp [submitRequest, hval]
      rw [hsheet]
      exact hok
  | approve i a =>
    exact statusOk_update_cell_review _ i 7 a
      (statusOk_update_cell_review s i 6 "Approved" hok (Or.inl rfl)
        (fun _ => Or.inl rfl))
      (Or.inr (Or.inl rfl)) (fun h => absurd h (by decide))
  | reject i a =>
    exact statusOk_update_cell_review _ i 7 a
      (statusOk_update_cell_review s i 6 "Rejected" hok (Or.inl rfl)
        (fun _ => Or.inr rfl))
      (Or.inr (Or.inl rfl)) (fun h => absurd h (by decide))
  | saveComment i c =>
    exact statusOk_update_cell_review s i 8 c hok (Or.inr (Or.inr rfl))
      (fun h => absurd h (by decide))

/-- C8: in every sheet state the application can reach, every data row has
its eight Request fields and a status among Pending/Approved/Rejected:
creation writes "Pending", and the only status writes thereafter are
"Approved" and "Rejected" (a later decision overwriting an earlier one). -/
theorem reachable_status_in_enum (header : Row) (s : Sheet)
    (h : Reachable header s) : statusOk s := by
  induction h with
  | init =>
    intro r hr
    simp at hr
  | step a _ ih =>
    exact statusOk_applyAction _ a ih

/-- Witness for C8: the state reached by a valid submission followed by an
approval satisfies the status invariant. -/
theorem reachable_status_in_enum_witness :
    statusOk (applyAction
      (applyAction [["h"]]
        (.submit "WFD01" "Alice" "E1" (some [0]) "2024-01-15 10:00:00" "FID"))
      (.approve 0 "carol")) :=
  reachable_status_in_enum ["h"] _
    (Reachable.step _ (Reachable.step _ Reachable.init))

end HybbApp
